import Mathlib

set_option maxHeartbeats 1000000

/-! Shallow embedding of the FilmFinderBot (src/main.py) navigation token codec,
pagination renderer, genre cache lookups and favorites store, together with
proofs of the specified properties. `PyResult.raised` models a Python exception
escaping the translated code. -/

inductive PyResult (α : Type) where
  | ok (a : α)
  | raised (e : String)
deriving DecidableEq, Repr

def isAsciiDigit (c : Char) : Bool := decide (48 ≤ c.toNat ∧ c.toNat ≤ 57)

def isPyWs (c : Char) : Bool :=
  decide (c.toNat = 32 ∨ c.toNat = 9 ∨ c.toNat = 10 ∨ c.toNat = 13 ∨ c.toNat = 11 ∨ c.toNat = 12)

def pyStrip (l : List Char) : List Char :=
  ((l.dropWhile isPyWs).reverse.dropWhile isPyWs).reverse

def digitStep (a : Nat) (c : Char) : Nat := a * 10 + (c.toNat - 48)

def pyDigitsAux (a : Nat) : List Char → Option Nat
  | [] => some a
  | c :: rest =>
    if isAsciiDigit c then pyDigitsAux (digitStep a c) rest
    else if c = '_' then
      match rest with
      | [] => none
      | c2 :: rest2 => if isAsciiDigit c2 then pyDigitsAux (digitStep a c2) rest2 else none
    else none

def pyDigits : List Char → Option Nat
  | [] => none
  | c :: rest => if isAsciiDigit c then pyDigitsAux (c.toNat - 48) rest else none

def pyIntParse (s : String) : Option Int :=
  match pyStrip s.data with
  | [] => none
  | c :: rest =>
    if c = '+' then (pyDigits rest).map (fun n => (n : Int))
    else if c = '-' then (pyDigits rest).map (fun n => -(n : Int))
    else (pyDigits (c :: rest)).map (fun n => (n : Int))

def digitChar (d : Nat) : Char :=
  if d = 0 then '0' else if d = 1 then '1' else if d = 2 then '2'
  else if d = 3 then '3' else if d = 4 then '4' else if d = 5 then '5'
  else if d = 6 then '6' else if d = 7 then '7' else if d = 8 then '8' else '9'

def natDecAux : Nat → Nat → List Char → List Char
  | 0, _, acc => acc
  | fuel+1, n, acc =>
    if n < 10 then digitChar n :: acc
    else natDecAux fuel (n / 10) (digitChar (n % 10) :: acc)

def natDecChars (n : Nat) : List Char := natDecAux (n + 1) n []

def pyIntStr (i : Int) : String :=
  if i < 0 then String.mk ('-' :: natDecChars i.natAbs) else String.mk (natDecChars i.natAbs)

def breakColon : List Char → Option (List Char × List Char)
  | [] => none
  | c :: rest =>
    if c = ':' then some ([], rest)
    else
      match breakColon rest with
      | none => none
      | some (pre, post) => some (c :: pre, post)

def pySplitColon : Nat → List Char → List (List Char)
  | 0, l => [l]
  | fuel+1, l =>
    match breakColon l with
    | none => [l]
    | some (pre, post) => pre :: pySplitColon fuel post

def pyTake (n : Nat) (s : String) : String := String.mk (s.data.take n)

def page_nav_cb (kind : String) (page : Int) (payload : String) : String :=
  "pg:" ++ kind ++ ":" ++ pyIntStr page ++ ":" ++ pyTake 40 payload

def parse_page_cb (data : String) : PyResult (String × Int × String) :=
  match pySplitColon 3 data.data with
  | [_, kind, pageField, payload] =>
    match pyIntParse (String.mk pageField) with
    | some n => .ok (String.mk kind, n, String.mk payload)
    | none => .raised "ValueError: invalid literal for int"
  | _ => .raised "ValueError: not enough values to unpack"

structure Movie where
  id : Int
  title : Option String
  original_title : Option String
deriving DecidableEq, Repr

structure Button where
  text : String
  callback_data : String
deriving DecidableEq, Repr

def pyOrStr (a : Option String) (b : String) : String :=
  match a with
  | some s => if s = "" then b else s
  | none => b

def movieTitle (m : Movie) : String := pyOrStr m.title (pyOrStr m.original_title "Untitled")

def movies_to_keyboard (results : List Movie) : List (List Button) :=
  (results.take 10).map (fun m => [⟨"Подробнее: " ++ movieTitle m, "det:" ++ pyIntStr m.id⟩])

structure RemotePage where
  results : Option (List Movie)
  total_pages : Option Int
deriving DecidableEq, Repr

inductive RenderResult where
  | message (text : String)
  | page (text : String) (keyboard : List (List Button))
deriving DecidableEq, Repr

def nav_row_buttons (kind : String) (page : Int) (payload : String)
    (total_pages : Int) (nresults : Nat) : List Button :=
  (if 1 < page then [⟨"◀ Пред", page_nav_cb kind (page - 1) payload⟩] else []) ++
  (if page < total_pages then [⟨"▶ След", page_nav_cb kind (page + 1) payload⟩]
   else if nresults = 20 then [⟨"▶ След", page_nav_cb kind (page + 1) payload⟩]
   else [])

def render_results (kind : String) (page : Int) (payload : String)
    (title_line : String) (data : RemotePage) : RenderResult :=
  if (data.results.getD []).isEmpty then .message "Ничего не найдено."
  else
    .page
      (title_line ++ "\n_(страница " ++ pyIntStr page ++ " из " ++
        pyIntStr (max 1 (data.total_pages.getD 1)) ++ ")_")
      (if (nav_row_buttons kind page payload (max 1 (data.total_pages.getD 1))
            (data.results.getD []).length).isEmpty
       then movies_to_keyboard (data.results.getD [])
       else movies_to_keyboard (data.results.getD []) ++
         [nav_row_buttons kind page payload (max 1 (data.total_pages.getD 1))
           (data.results.getD []).length])

def show_list_with_pagination (kind : String) (page : Int) (payload : String)
    (title_line : String) (data : RemotePage) : PyResult RenderResult :=
  if kind = "s" then .ok (render_results kind page payload title_line data)
  else if kind = "g" then
    match pyIntParse payload with
    | some _ => .ok (render_results kind page payload title_line data)
    | none => .raised "ValueError: invalid literal for int"
  else if kind = "c" then .ok (render_results kind page payload title_line data)
  else .ok (.message "Неизвестный запрос.")

def hasButton (r : PyResult RenderResult) (label : String) : Bool :=
  match r with
  | .ok (.page _ rows) => rows.any (fun row => row.any (fun b => decide (b.text = label)))
  | _ => false

def dictGet (d : List (Int × String)) (k : Int) : Option String :=
  (d.find? (fun p => decide (p.1 = k))).map Prod.snd

def dictGetD (d : List (Int × String)) (k : Int) (dflt : String) : String :=
  (dictGet d k).getD dflt

def nav_genre_name (cache : List (Int × String)) (payload : String) : String :=
  match pyIntParse payload with
  | some gid => dictGetD cache gid (pyIntStr gid)
  | none => payload

def on_genre_header (cache : List (Int × String)) (gid : Int) : PyResult String :=
  match dictGet cache gid with
  | some name => .ok ("🎭 Жанр: *" ++ name ++ "*")
  | none => .raised "KeyError"

inductive NavOutcome where
  | raised (e : String)
  | replied (text : String)
  | renders (kind : String) (page : Int) (payload : String) (title_line : String)
deriving DecidableEq, Repr

def on_page_nav (cache : List (Int × String)) (data : String) : NavOutcome :=
  match parse_page_cb data with
  | .raised e => .raised e
  | .ok (kind, page, payload) =>
    if kind = "s" then .renders kind page payload ("🔎 Поиск: *" ++ payload ++ "*")
    else if kind = "g" then
      .renders kind page payload ("🎭 Жанр: *" ++ nav_genre_name cache payload ++ "*")
    else if kind = "c" then .renders kind page payload ("🌍 Страна: *" ++ payload ++ "*")
    else .replied "Неизвестный тип страницы."

structure FavRecord where
  user_id : Int
  movie_id : Int
  title : String
  year : String
deriving DecidableEq, Repr

def favMatch (u m : Int) (r : FavRecord) : Bool :=
  decide (r.user_id = u) && decide (r.movie_id = m)

def containsKey (s : List FavRecord) (u m : Int) : Bool := s.any (favMatch u m)

def fav_add (s : List FavRecord) (u m : Int) (t y : String) : Bool × List FavRecord :=
  if containsKey s u m then (false, s) else (true, s ++ [⟨u, m, t, y⟩])

def fav_remove (s : List FavRecord) (u m : Int) : Nat × List FavRecord :=
  ((s.filter (favMatch u m)).length, s.filter (fun r => ! favMatch u m r))

inductive FavOp where
  | add (u m : Int) (t y : String)
  | remove (u m : Int)
deriving DecidableEq, Repr

def applyOp (s : List FavRecord) : FavOp → List FavRecord
  | .add u m t y => (fav_add s u m t y).2
  | .remove u m => (fav_remove s u m).2

def applyOps (s : List FavRecord) (ops : List FavOp) : List FavRecord := ops.foldl applyOp s

def favUnique : List FavRecord → Bool
  | [] => true
  | r :: rest => !(containsKey rest r.user_id r.movie_id) && favUnique rest

theorem digitChar_isDigit (d : Nat) : isAsciiDigit (digitChar d) = true := by
  unfold digitChar
  split_ifs <;> decide

theorem digitChar_val (d : Nat) (h : d < 10) : (digitChar d).toNat = 48 + d := by
  unfold digitChar
  split_ifs with h0 h1 h2 h3 h4 h5 h6 h7 h8
  · subst h0; decide
  · subst h1; decide
  · subst h2; decide
  · subst h3; decide
  · subst h4; decide
  · subst h5; decide
  · subst h6; decide
  · subst h7; decide
  · subst h8; decide
  · have h9 : d = 9 := by omega
    subst h9; decide

theorem digit_not_ws {c : Char} (h : isAsciiDigit c = true) : isPyWs c = false := by
  simp [isAsciiDigit] at h
  simp [isPyWs]
  omega

theorem digit_ne_plus {c : Char} (h : isAsciiDigit c = true) : ¬ c = '+' := by
  intro hc; rw [hc] at h; exact absurd h (by decide)

theorem digit_ne_minus {c : Char} (h : isAsciiDigit c = true) : ¬ c = '-' := by
  intro hc; rw [hc] at h; exact absurd h (by decide)

theorem digit_ne_colon {c : Char} (h : isAsciiDigit c = true) : ¬ c = ':' := by
  intro hc; rw [hc] at h; exact absurd h (by decide)

theorem natDecAux_decomp (n : Nat) : ∀ (fuel : Nat) (acc : List Char), n < fuel →
    natDecAux fuel n acc = natDecChars n ++ acc := by
  induction n using Nat.strong_induction_on with
  | _ n ih =>
    intro fuel acc hlt
    obtain ⟨f, rfl⟩ : ∃ f, fuel = f + 1 := ⟨fuel - 1, by omega⟩
    by_cases h10 : n < 10
    · simp [natDecAux, natDecChars, h10]
    · have hdiv : n / 10 < n := Nat.div_lt_self (by omega) (by omega)
      have l1 : natDecAux (f + 1) n acc = natDecAux f (n / 10) (digitChar (n % 10) :: acc) := by
        simp [natDecAux, h10]
      have l2 : natDecChars n = natDecAux n (n / 10) [digitChar (n % 10)] := by
        simp [natDecChars, natDecAux, h10]
      rw [l1, ih (n / 10) hdiv f _ (by omega), l2, ih (n / 10) hdiv n _ (by omega)]
      simp

theorem natDecAux_digits : ∀ (fuel n : Nat) (acc : List Char),
    (∀ c ∈ acc, isAsciiDigit c = true) → ∀ c ∈ natDecAux fuel n acc, isAsciiDigit c = true := by
  intro fuel
  induction fuel with
  | zero => intro n acc hacc; simpa [natDecAux] using hacc
  | succ f ihf =>
    intro n acc hacc c hc
    by_cases h10 : n < 10
    · simp [natDecAux, h10] at hc
      rcases hc with rfl | hc
      · exact digitChar_isDigit n
      · exact hacc c hc
    · simp only [natDecAux, h10, if_false] at hc
      refine ihf (n / 10) _ ?_ c hc
      intro d hd
      rcases List.mem_cons.mp hd with rfl | hd
      · exact digitChar_isDigit (n % 10)
      · exact hacc d hd

theorem natDecChars_digits (n : Nat) : ∀ c ∈ natDecChars n, isAsciiDigit c = true :=
  natDecAux_digits (n + 1) n [] (by simp)

theorem natDecAux_ne_nil : ∀ (fuel n : Nat) (acc : List Char), 0 < fuel →
    natDecAux fuel n acc ≠ [] := by
  intro fuel
  induction fuel with
  | zero => intro n acc h; exact absurd h (by omega)
  | succ f ihf =>
    intro n acc _
    by_cases h10 : n < 10
    · simp [natDecAux, h10]
    · simp only [natDecAux, h10, if_false]
      by_cases hf : 0 < f
      · exact ihf (n / 10) _ hf
      · have hf0 : f = 0 := by omega
        subst hf0
        simp [natDecAux]

theorem natDecChars_ne_nil (n : Nat) : natDecChars n ≠ [] :=
  natDecAux_ne_nil (n + 1) n [] (by omega)

theorem natDec_foldl (n : Nat) : List.foldl digitStep 0 (natDecChars n) = n := by
  induction n using Nat.strong_induction_on with
  | _ n ih =>
    by_cases h10 : n < 10
    · simp [natDecChars, natDecAux, h10, digitStep, digitChar_val n h10]
    · have hdiv : n / 10 < n := Nat.div_lt_self (by omega) (by omega)
      have h1 : natDecChars n = natDecChars (n / 10) ++ [digitChar (n % 10)] := by
        show natDecAux (n + 1) n [] = _
        simp only [natDecAux, h10, if_false]
        exact natDecAux_decomp (n / 10) n _ (by omega)
      rw [h1, List.foldl_append, ih (n / 10) hdiv]
      simp [digitStep, digitChar_val (n % 10) (Nat.mod_lt n (by omega))]
      omega

theorem pyDigitsAux_cons_digit (a : Nat) (c : Char) (rest : List Char)
    (hc : isAsciiDigit c = true) :
    pyDigitsAux a (c :: rest) = pyDigitsAux (digitStep a c) rest := by
  conv_lhs => rw [pyDigitsAux.eq_def]
  simp [hc]

theorem pyDigitsAux_digits : ∀ (l : List Char) (a : Nat),
    (∀ c ∈ l, isAsciiDigit c = true) → pyDigitsAux a l = some (l.foldl digitStep a) := by
  intro l
  induction l with
  | nil => intro a _; simp [pyDigitsAux]
  | cons c rest ihl =>
    intro a h
    have hc : isAsciiDigit c = true := h c (by simp)
    rw [pyDigitsAux_cons_digit a c rest hc]
    rw [ihl _ (fun d hd => h d (by simp [hd]))]
    simp

theorem pyDigits_natDec (n : Nat) : pyDigits (natDecChars n) = some n := by
  obtain ⟨c, rest, hcr⟩ : ∃ c rest, natDecChars n = c :: rest := by
    cases h : natDecChars n with
    | nil => exact absurd h (natDecChars_ne_nil n)
    | cons c rest => exact ⟨c, rest, rfl⟩
  have hdig := natDecChars_digits n
  rw [hcr] at hdig ⊢
  have hc : isAsciiDigit c = true := hdig c (by simp)
  simp only [pyDigits, hc, if_true]
  rw [pyDigitsAux_digits rest (c.toNat - 48) (fun d hd => hdig d (by simp [hd]))]
  have hfold : List.foldl digitStep 0 (c :: rest) = n := by
    rw [← hcr]; exact natDec_foldl n
  simp only [List.foldl_cons] at hfold
  rw [show digitStep 0 c = c.toNat - 48 by simp [digitStep]] at hfold
  rw [hfold]

theorem dropWhile_id_of_false {p : Char → Bool} : ∀ (l : List Char),
    (∀ c ∈ l, p c = false) → l.dropWhile p = l := by
  intro l h
  cases l with
  | nil => rfl
  | cons c rest => simp [List.dropWhile_cons, h c (by simp)]

theorem pyStrip_id (l : List Char) (h : ∀ c ∈ l, isPyWs c = false) : pyStrip l = l := by
  unfold pyStrip
  rw [dropWhile_id_of_false l h]
  rw [dropWhile_id_of_false l.reverse (fun c hc => h c (List.mem_reverse.mp hc))]
  exact List.reverse_reverse l

theorem pyIntParse_eq_digits (s : String) (c : Char) (rest : List Char)
    (h : pyStrip s.data = c :: rest) (hplus : ¬ c = '+') (hminus : ¬ c = '-') :
    pyIntParse s = (pyDigits (c :: rest)).map (fun n => (n : Int)) := by
  unfold pyIntParse
  rw [h]
  simp [hplus, hminus]

theorem pyIntParse_eq_neg (s : String) (rest : List Char)
    (h : pyStrip s.data = '-' :: rest) :
    pyIntParse s = (pyDigits rest).map (fun n => -(n : Int)) := by
  unfold pyIntParse
  rw [h]
  simp

theorem pyIntParse_mk_natDec (n : Nat) : pyIntParse (String.mk (natDecChars n)) = some (n : Int) := by
  obtain ⟨c, rest, hcr⟩ : ∃ c rest, natDecChars n = c :: rest := by
    cases h : natDecChars n with
    | nil => exact absurd h (natDecChars_ne_nil n)
    | cons c rest => exact ⟨c, rest, rfl⟩
  have hdig := natDecChars_digits n
  have hc : isAsciiDigit c = true := hdig c (by rw [hcr]; simp)
  have hstrip : pyStrip (String.mk (natDecChars n)).data = c :: rest := by
    show pyStrip (natDecChars n) = c :: rest
    rw [pyStrip_id _ (fun d hd => digit_not_ws (hdig d hd)), hcr]
  rw [pyIntParse_eq_digits _ c rest hstrip (digit_ne_plus hc) (digit_ne_minus hc),
    ← hcr, pyDigits_natDec n]
  rfl

theorem pyIntParse_pyIntStr (i : Int) : pyIntParse (pyIntStr i) = some i := by
  by_cases hneg : i < 0
  · have hdig := natDecChars_digits i.natAbs
    have h1 : pyIntStr i = String.mk ('-' :: natDecChars i.natAbs) := by
      unfold pyIntStr; rw [if_pos hneg]
    have hstrip : pyStrip (String.mk ('-' :: natDecChars i.natAbs)).data =
        '-' :: natDecChars i.natAbs := by
      show pyStrip ('-' :: natDecChars i.natAbs) = '-' :: natDecChars i.natAbs
      apply pyStrip_id
      intro c hc
      rcases List.mem_cons.mp hc with rfl | hc
      · decide
      · exact digit_not_ws (hdig c hc)
    rw [h1, pyIntParse_eq_neg _ (natDecChars i.natAbs) hstrip, pyDigits_natDec]
    show some (-(i.natAbs : Int)) = some i
    congr 1
    omega
  · have h0 : 0 ≤ i := by omega
    have h1 : pyIntStr i = String.mk (natDecChars i.natAbs) := by
      unfold pyIntStr; rw [if_neg hneg]
    rw [h1, pyIntParse_mk_natDec i.natAbs]
    congr 1
    omega

theorem pyIntStr_data_digits (i : Int) (h : 0 ≤ i) :
    ∀ c ∈ (pyIntStr i).data, isAsciiDigit c = true := by
  have h1 : pyIntStr i = String.mk (natDecChars i.natAbs) := by
    unfold pyIntStr; rw [if_neg (by omega)]
  rw [h1]
  exact natDecChars_digits i.natAbs

theorem breakColon_cons (c : Char) (rest : List Char) :
    breakColon (c :: rest) =
      if c = ':' then some ([], rest)
      else
        match breakColon rest with
        | none => none
        | some (pre, post) => some (c :: pre, post) := by
  conv_lhs => rw [breakColon.eq_def]

theorem breakColon_append (l r : List Char) (h : ':' ∉ l) :
    breakColon (l ++ ':' :: r) = some (l, r) := by
  induction l with
  | nil => simp [breakColon_cons]
  | cons c l ihl =>
    have hc : ¬ c = ':' := by intro hc; exact h (by simp [hc])
    rw [List.cons_append, breakColon_cons, if_neg hc,
      ihl (fun hm => h (by simp [hm]))]

theorem breakColon_eq_none : ∀ (l : List Char), breakColon l = none ↔ ':' ∉ l := by
  intro l
  induction l with
  | nil => simp [breakColon]
  | cons c rest ihl =>
    by_cases hc : c = ':'
    · subst hc
      rw [breakColon_cons]
      simp
    · rw [breakColon_cons, if_neg hc]
      cases hbr : breakColon rest with
      | none =>
        simp only [List.mem_cons]
        constructor
        · intro _ hmem
          rcases hmem with h1 | h1
          · exact hc h1.symm
          · exact (ihl.mp hbr) h1
        · intro _; trivial
      | some pp =>
        obtain ⟨p1, p2⟩ := pp
        simp only [List.mem_cons]
        constructor
        · intro hfalse; cases hfalse
        · intro hmem
          exfalso
          have : ':' ∈ rest := by
            by_contra hnot
            rw [(ihl.mpr hnot : breakColon rest = none)] at hbr
            cases hbr
          exact hmem (Or.inr this)

theorem breakColon_eq_some : ∀ (l pre post : List Char), breakColon l = some (pre, post) →
    l = pre ++ ':' :: post ∧ ':' ∉ pre := by
  intro l
  induction l with
  | nil => intro pre post h; cases h
  | cons c rest ihl =>
    intro pre post h
    by_cases hc : c = ':'
    · subst hc
      rw [breakColon_cons, if_pos rfl] at h
      have h' := Option.some.inj h
      have h1 : pre = [] := (congrArg Prod.fst h').symm
      have h2 : post = rest := (congrArg Prod.snd h').symm
      subst h1
      subst h2
      simp
    · rw [breakColon_cons, if_neg hc] at h
      cases hbr : breakColon rest with
      | none => rw [hbr] at h; cases h
      | some pp =>
        obtain ⟨p1, p2⟩ := pp
        rw [hbr] at h
        have h1 : c :: p1 = pre := congrArg Prod.fst (Option.some.inj h)
        have h2 : p2 = post := congrArg Prod.snd (Option.some.inj h)
        subst h1
        subst h2
        obtain ⟨hl, hnp⟩ := ihl p1 p2 hbr
        constructor
        · rw [List.cons_append, ← hl]
        · intro hmem
          rcases List.mem_cons.mp hmem with h1 | h1
          · exact hc h1.symm
          · exact hnp h1

theorem pySplitColon_step (fuel : Nat) (l pre post : List Char)
    (h : breakColon l = some (pre, post)) :
    pySplitColon (fuel + 1) l = pre :: pySplitColon fuel post := by
  show (match breakColon l with
        | none => [l]
        | some (pre, post) => pre :: pySplitColon fuel post) = _
  rw [h]

theorem pySplitColon_nostep (fuel : Nat) (l : List Char) (h : breakColon l = none) :
    pySplitColon (fuel + 1) l = [l] := by
  show (match breakColon l with
        | none => [l]
        | some (pre, post) => pre :: pySplitColon fuel post) = _
  rw [h]

theorem pySplitColon3_step (l pre post : List Char) (h : breakColon l = some (pre, post)) :
    pySplitColon 3 l = pre :: pySplitColon 2 post := pySplitColon_step 2 l pre post h

theorem pySplitColon2_step (l pre post : List Char) (h : breakColon l = some (pre, post)) :
    pySplitColon 2 l = pre :: pySplitColon 1 post := pySplitColon_step 1 l pre post h

theorem pySplitColon1_step (l pre post : List Char) (h : breakColon l = some (pre, post)) :
    pySplitColon 1 l = pre :: pySplitColon 0 post := pySplitColon_step 0 l pre post h

theorem pySplitColon_length (fuel : Nat) : ∀ (l : List Char),
    (pySplitColon fuel l).length = min fuel (l.count ':') + 1 := by
  induction fuel with
  | zero => intro l; simp [pySplitColon]
  | succ f ihf =>
    intro l
    cases hbr : breakColon l with
    | none =>
      rw [pySplitColon_nostep f l hbr]
      have hnc : ':' ∉ l := (breakColon_eq_none l).mp hbr
      have hz : l.count ':' = 0 := List.count_eq_zero.mpr hnc
      simp [hz]
    | some pp =>
      obtain ⟨pre, post⟩ := pp
      rw [pySplitColon_step f l pre post hbr]
      obtain ⟨hl, hnp⟩ := breakColon_eq_some l pre post hbr
      have hcnt : l.count ':' = post.count ':' + 1 := by
        rw [hl, List.count_append, List.count_cons]
        have hz : pre.count ':' = 0 := List.count_eq_zero.mpr hnp
        simp [hz]
      rw [List.length_cons, ihf post, hcnt]
      omega

theorem parse_page_cb_eq4 (data : String) (f0 f1 f2 f3 : List Char)
    (h : pySplitColon 3 data.data = [f0, f1, f2, f3]) :
    parse_page_cb data =
      match pyIntParse (String.mk f2) with
      | some n => .ok (String.mk f1, n, String.mk f3)
      | none => .raised "ValueError: invalid literal for int" := by
  unfold parse_page_cb
  rw [h]

theorem parse_page_cb_short (data : String) (h : (pySplitColon 3 data.data).length < 4) :
    parse_page_cb data = .raised "ValueError: not enough values to unpack" := by
  unfold parse_page_cb
  rcases hs : pySplitColon 3 data.data with _ | ⟨a, _ | ⟨b, _ | ⟨c, _ | ⟨d, rest⟩⟩⟩⟩
  · rfl
  · rfl
  · rfl
  · rfl
  · rcases rest with _ | ⟨e, rest⟩
    · rw [hs] at h
      simp at h
    · rfl

theorem page_nav_cb_data (kind : String) (page : Int) (payload : String) :
    (page_nav_cb kind page payload).data =
      'p' :: 'g' :: ':' ::
        (kind.data ++ ':' :: ((pyIntStr page).data ++ ':' :: (pyTake 40 payload).data)) := by
  unfold page_nav_cb
  simp only [String.data_append, List.append_assoc]
  simp

theorem parse_encode (kind : String) (page : Int) (payload : String)
    (hk : ':' ∉ kind.data) (hp : 0 ≤ page) :
    parse_page_cb (page_nav_cb kind page payload) = .ok (kind, page, pyTake 40 payload) := by
  have hpgd : ∀ c ∈ (pyIntStr page).data, isAsciiDigit c = true := pyIntStr_data_digits page hp
  have hpgc : ':' ∉ (pyIntStr page).data := fun hm => (digit_ne_colon (hpgd ':' hm)) rfl
  have hsplit : pySplitColon 3 (page_nav_cb kind page payload).data =
      [['p', 'g'], kind.data, (pyIntStr page).data, (pyTake 40 payload).data] := by
    rw [page_nav_cb_data]
    have h1 : breakColon ('p' :: 'g' :: ':' ::
        (kind.data ++ ':' :: ((pyIntStr page).data ++ ':' :: (pyTake 40 payload).data))) =
        some (['p', 'g'],
          kind.data ++ ':' :: ((pyIntStr page).data ++ ':' :: (pyTake 40 payload).data)) := by
      have hgen := breakColon_append ['p', 'g']
        (kind.data ++ ':' :: ((pyIntStr page).data ++ ':' :: (pyTake 40 payload).data))
        (by decide)
      simpa using hgen
    have h2 := breakColon_append kind.data
      ((pyIntStr page).data ++ ':' :: (pyTake 40 payload).data) hk
    have h3 := breakColon_append (pyIntStr page).data (pyTake 40 payload).data hpgc
    rw [pySplitColon3_step _ _ _ h1, pySplitColon2_step _ _ _ h2, pySplitColon1_step _ _ _ h3]
    rfl
  rw [parse_page_cb_eq4 (page_nav_cb kind page payload) ['p', 'g'] kind.data
    (pyIntStr page).data (pyTake 40 payload).data hsplit]
  have hparse : pyIntParse (String.mk (pyIntStr page).data) = some page := pyIntParse_pyIntStr page
  rw [hparse]

theorem pyTake_of_le (payload : String) (h : payload.length ≤ 40) :
    pyTake 40 payload = payload := by
  unfold pyTake
  rw [List.take_of_length_le h]

theorem pyTake_idem (payload : String) : pyTake 40 (pyTake 40 payload) = pyTake 40 payload := by
  unfold pyTake
  show String.mk ((payload.data.take 40).take 40) = String.mk (payload.data.take 40)
  rw [List.take_take]
  simp

theorem kind_no_colon (kind : String) (hk : kind = "s" ∨ kind = "g" ∨ kind = "c") :
    ':' ∉ kind.data := by
  rcases hk with rfl | rfl | rfl <;> decide

/-- C1: for every kind in {"s", "g", "c"}, every page ≥ 1, and every payload of
length at most 40 containing no ":" delimiter, decoding the encoded navigation
token returns exactly the original triple. -/
theorem token_round_trip (kind : String) (page : Int) (payload : String)
    (hk : kind = "s" ∨ kind = "g" ∨ kind = "c") (hp : 1 ≤ page)
    (hlen : payload.length ≤ 40) (_hcol : ':' ∉ payload.data) :
    parse_page_cb (page_nav_cb kind page payload) = .ok (kind, page, payload) := by
  rw [parse_encode kind page payload (kind_no_colon kind hk) (by omega),
    pyTake_of_le payload hlen]

theorem token_round_trip_witness :
    parse_page_cb (page_nav_cb "s" 3 "dune") = .ok ("s", 3, "dune") :=
  token_round_trip "s" 3 "dune" (Or.inl rfl) (by decide) (by decide) (by decide)

/-- C10: the decoder splits on at most 3 delimiters, so the whole remainder after
the third ":" is returned as the payload; the round trip holds even when the
payload itself contains ":" characters. -/
theorem token_round_trip_colon_payload (kind : String) (page : Int) (payload : String)
    (hk : kind = "s" ∨ kind = "g" ∨ kind = "c") (hp : 1 ≤ page)
    (hlen : payload.length ≤ 40) :
    parse_page_cb (page_nav_cb kind page payload) = .ok (kind, page, payload) := by
  rw [parse_encode kind page payload (kind_no_colon kind hk) (by omega),
    pyTake_of_le payload hlen]

theorem token_round_trip_colon_payload_witness :
    parse_page_cb (page_nav_cb "g" 2 "a:b:c") = .ok ("g", 2, "a:b:c") :=
  token_round_trip_colon_payload "g" 2 "a:b:c" (Or.inr (Or.inl rfl)) (by decide) (by decide)

/-- C8: encoding truncates the payload to its first 40 characters, the truncated
payload is what decoding recovers, and re-encoding the truncated payload is a
fixed point producing the identical token. -/
theorem payload_truncation_stable (kind : String) (page : Int) (payload : String)
    (hk : kind = "s" ∨ kind = "g" ∨ kind = "c") (hp : 1 ≤ page) :
    parse_page_cb (page_nav_cb kind page payload) = .ok (kind, page, pyTake 40 payload) ∧
    (pyTake 40 payload).length ≤ 40 ∧
    page_nav_cb kind page (pyTake 40 payload) = page_nav_cb kind page payload := by
  refine ⟨parse_encode kind page payload (kind_no_colon kind hk) (by omega), ?_, ?_⟩
  · show (payload.data.take 40).length ≤ 40
    rw [List.length_take]
    omega
  · unfold page_nav_cb
    rw [pyTake_idem]

theorem payload_truncation_stable_witness :
    parse_page_cb (page_nav_cb "s" 1 "aaaaaaaaaaaaaaaaaaaaaaaaaaaaaaaaaaaaaaaaaaaaaaaaaa") =
      .ok ("s", 1, pyTake 40 "aaaaaaaaaaaaaaaaaaaaaaaaaaaaaaaaaaaaaaaaaaaaaaaaaa") ∧
    (pyTake 40 "aaaaaaaaaaaaaaaaaaaaaaaaaaaaaaaaaaaaaaaaaaaaaaaaaa").length ≤ 40 ∧
    page_nav_cb "s" 1 (pyTake 40 "aaaaaaaaaaaaaaaaaaaaaaaaaaaaaaaaaaaaaaaaaaaaaaaaaa") =
      page_nav_cb "s" 1 "aaaaaaaaaaaaaaaaaaaaaaaaaaaaaaaaaaaaaaaaaaaaaaaaaa" :=
  payload_truncation_stable "s" 1 "aaaaaaaaaaaaaaaaaaaaaaaaaaaaaaaaaaaaaaaaaaaaaaaaaa"
    (Or.inl rfl) (by decide)

/-- C2 (counterexample): a token with too few fields makes the decode raise an
uncaught ValueError inside the handler (no reply at all), and a token whose page
field is zero or negative is accepted rather than rejected — contradicting the
claim that such inputs yield a handled MalformedToken condition with an
"unrecognized request" reply. -/
theorem malformed_token_counterexample :
    on_page_nav [] "pg:s:oops" = .raised "ValueError: not enough values to unpack" ∧
    parse_page_cb "pg:s:0:x" = .ok ("s", 0, "x") ∧
    on_page_nav [] "pg:s:-3:x" = .renders "s" (-3) "x" "🔎 Поиск: *x*" := by
  exact ⟨by decide, by decide, by decide⟩

/-- C2 (amended): decoding a string with fewer than three ":" separators raises
ValueError (too few values to unpack); when splitting succeeds but the page field
does not parse as an integer, decoding raises ValueError as well; and on_page_nav
does not catch these exceptions — they propagate out of the handler unchanged,
producing no reply. -/
theorem malformed_token_raises (cache : List (Int × String)) (data : String) :
    (data.data.count ':' < 3 →
      parse_page_cb data = .raised "ValueError: not enough values to unpack") ∧
    (∀ f0 f1 f2 f3 : List Char,
      pySplitColon 3 data.data = [f0, f1, f2, f3] →
      pyIntParse (String.mk f2) = none →
      parse_page_cb data = .raised "ValueError: invalid literal for int") ∧
    (∀ e, parse_page_cb data = .raised e → on_page_nav cache data = .raised e) := by
  refine ⟨?_, ?_, ?_⟩
  · intro hcnt
    apply parse_page_cb_short
    rw [pySplitColon_length 3 data.data]
    omega
  · intro f0 f1 f2 f3 hsplit hnone
    rw [parse_page_cb_eq4 data f0 f1 f2 f3 hsplit, hnone]
  · intro e h
    unfold on_page_nav
    rw [h]

theorem malformed_token_raises_witness :
    parse_page_cb "pg:s:abc" = .raised "ValueError: not enough values to unpack" ∧
    on_page_nav [] "pg:s:abc" = .raised "ValueError: not enough values to unpack" ∧
    parse_page_cb "pg:s:x:y" = .raised "ValueError: invalid literal for int" := by
  have h := malformed_token_raises [] "pg:s:abc"
  have h1 := h.1 (by decide)
  have h2 := (malformed_token_raises [] "pg:s:x:y").2.1 ['p', 'g'] ['s'] ['x'] ['y']
    (by decide) (by decide)
  exact ⟨h1, h.2.2 _ h1, h2⟩

theorem favMatch_symm_false (a r : FavRecord)
    (h : favMatch r.user_id r.movie_id a = false) :
    favMatch a.user_id a.movie_id r = false := by
  simp only [favMatch, Bool.and_eq_false_iff, decide_eq_false_iff_not] at h ⊢
  rcases h with h | h
  · exact Or.inl (fun e => h e.symm)
  · exact Or.inr (fun e => h e.symm)

theorem favUnique_append_single (s : List FavRecord) (r : FavRecord) :
    favUnique s = true → containsKey s r.user_id r.movie_id = false →
    favUnique (s ++ [r]) = true := by
  induction s with
  | nil =>
    intro _ _
    simp [favUnique, containsKey, favMatch]
  | cons a s ihs =>
    intro h hnc
    simp only [favUnique, Bool.and_eq_true, Bool.not_eq_true'] at h
    simp only [containsKey, List.any_cons, Bool.or_eq_false_iff] at hnc
    rw [List.cons_append]
    simp only [favUnique, Bool.and_eq_true, Bool.not_eq_true']
    constructor
    · show (s ++ [r]).any (favMatch a.user_id a.movie_id) = false
      rw [List.any_append]
      simp only [List.any_cons, List.any_nil, Bool.or_false, Bool.or_eq_false_iff]
      have h1 : s.any (favMatch a.user_id a.movie_id) = false := h.1
      exact ⟨h1, favMatch_symm_false a r hnc.1⟩
    · exact ihs h.2 hnc.2

theorem favUnique_filter (s : List FavRecord) (p : FavRecord → Bool)
    (h : favUnique s = true) : favUnique (s.filter p) = true := by
  induction s with
  | nil => simp [favUnique]
  | cons a s ihs =>
    simp only [favUnique, Bool.and_eq_true, Bool.not_eq_true'] at h
    obtain ⟨h1, h2⟩ := h
    rw [List.filter_cons]
    by_cases hp : p a = true
    · rw [if_pos hp]
      simp only [favUnique, Bool.and_eq_true, Bool.not_eq_true']
      refine ⟨?_, ihs h2⟩
      simp only [containsKey, List.any_filter]
      simp only [containsKey] at h1
      rw [List.any_eq_false] at h1 ⊢
      intro x hx
      have hxf := h1 x hx
      cases hfm : favMatch a.user_id a.movie_id x
      · simp [hfm]
      · exact absurd hfm hxf
    · rw [if_neg hp]
      exact ihs h2

theorem favUnique_applyOp (s : List FavRecord) (op : FavOp) (h : favUnique s = true) :
    favUnique (applyOp s op) = true := by
  cases op with
  | add u m t y =>
    simp only [applyOp, fav_add]
    by_cases hc : containsKey s u m = true
    · rw [if_pos hc]
      exact h
    · rw [if_neg hc]
      exact favUnique_append_single s ⟨u, m, t, y⟩ h (Bool.not_eq_true _ ▸ hc)
  | remove u m =>
    simp only [applyOp, fav_remove]
    exact favUnique_filter s _ h

theorem favUnique_applyOps (s : List FavRecord) (ops : List FavOp) (h : favUnique s = true) :
    favUnique (applyOps s ops) = true := by
  induction ops generalizing s with
  | nil => simpa [applyOps] using h
  | cons op ops iho =>
    simp only [applyOps, List.foldl_cons]
    exact iho (applyOp s op) (favUnique_applyOp s op h)

/-- C4: starting from any store satisfying the (userId, itemId) uniqueness
invariant, any sequence of add/remove operations preserves it; a duplicate add
returns False (AlreadyExists) and leaves the store unchanged, while an add of an
absent pair returns True (Inserted) and appends exactly one record. -/
theorem favorites_uniqueness (s : List FavRecord) (ops : List FavOp) (u m : Int) (t y : String)
    (h : favUnique s = true) :
    favUnique (applyOps s ops) = true ∧
    (containsKey s u m = true → fav_add s u m t y = (false, s)) ∧
    (containsKey s u m = false → fav_add s u m t y = (true, s ++ [⟨u, m, t, y⟩])) := by
  refine ⟨favUnique_applyOps s ops h, ?_, ?_⟩
  · intro hc
    simp [fav_add, hc]
  · intro hc
    simp [fav_add, hc]

theorem favorites_uniqueness_witness :
    favUnique (applyOps [⟨1, 42, "T", "1999"⟩]
      [FavOp.add 1 42 "T" "1999", FavOp.add 2 7 "X" "2000", FavOp.remove 1 42]) = true ∧
    fav_add [⟨1, 42, "T", "1999"⟩] 1 42 "T" "1999" = (false, [⟨1, 42, "T", "1999"⟩]) ∧
    fav_add [⟨1, 42, "T", "1999"⟩] 2 7 "X" "2000" =
      (true, [⟨1, 42, "T", "1999"⟩, ⟨2, 7, "X", "2000"⟩]) := by
  have h1 := favorites_uniqueness [⟨1, 42, "T", "1999"⟩]
    [FavOp.add 1 42 "T" "1999", FavOp.add 2 7 "X" "2000", FavOp.remove 1 42]
    1 42 "T" "1999" (by decide)
  have h2 := favorites_uniqueness [⟨1, 42, "T", "1999"⟩] [] 2 7 "X" "2000" (by decide)
  exact ⟨h1.1, h1.2.1 (by decide), h2.2.2 (by decide)⟩

theorem fav_remove_absent (s : List FavRecord) (u m : Int)
    (h : containsKey s u m = false) : fav_remove s u m = (0, s) := by
  unfold fav_remove
  simp only [containsKey] at h
  rw [List.any_eq_false] at h
  have h1 : s.filter (favMatch u m) = [] := List.filter_eq_nil.mpr (fun a ha => h a ha)
  have h2 : s.filter (fun r => ! favMatch u m r) = s := by
    apply List.filter_eq_self.mpr
    intro a ha
    cases hfm : favMatch u m a
    · rfl
    · exact absurd hfm (h a ha)
  rw [h1, h2]
  rfl

theorem fav_remove_present_count (s : List FavRecord) (u m : Int) :
    favUnique s = true → containsKey s u m = true →
    (s.filter (favMatch u m)).length = 1 := by
  induction s with
  | nil => intro _ hc; cases hc
  | cons a s ihs =>
    intro hu hc
    simp only [favUnique, Bool.and_eq_true, Bool.not_eq_true'] at hu
    obtain ⟨h1, h2⟩ := hu
    rw [List.filter_cons]
    by_cases hm : favMatch u m a = true
    · rw [if_pos hm]
      have hau : a.user_id = u ∧ a.movie_id = m := by
        simpa [favMatch, Bool.and_eq_true, decide_eq_true_eq] using hm
      have hcs : containsKey s u m = false := by
        rw [← hau.1, ← hau.2]
        exact h1
      simp only [containsKey] at hcs
      rw [List.any_eq_false] at hcs
      rw [List.filter_eq_nil.mpr (fun b hb => hcs b hb)]
      rfl
    · rw [if_neg hm]
      apply ihs h2
      simp only [containsKey, List.any_cons, Bool.or_eq_true] at hc
      rcases hc with hc | hc
      · exact absurd hc hm
      · exact hc

/-- C5: removing an absent (userId, itemId) pair returns count 0 without error
and leaves the store unchanged; removing a present pair from a store satisfying
the uniqueness invariant returns count 1; and a second remove of the same pair
always returns count 0. -/
theorem fav_remove_idempotent (s : List FavRecord) (u m : Int) :
    (containsKey s u m = false → fav_remove s u m = (0, s)) ∧
    (favUnique s = true → containsKey s u m = true → (fav_remove s u m).1 = 1) ∧
    fav_remove (fav_remove s u m).2 u m = (0, (fav_remove s u m).2) := by
  refine ⟨fav_remove_absent s u m, ?_, ?_⟩
  · intro hu hc
    show (s.filter (favMatch u m)).length = 1
    exact fav_remove_present_count s u m hu hc
  · apply fav_remove_absent
    show (s.filter (fun r => ! favMatch u m r)).any (favMatch u m) = false
    rw [List.any_filter, List.any_eq_false]
    intro x _
    cases hfm : favMatch u m x <;> simp [hfm]

theorem fav_remove_idempotent_witness :
    fav_remove [⟨1, 42, "T", "1999"⟩] 2 7 = (0, [⟨1, 42, "T", "1999"⟩]) ∧
    (fav_remove [⟨1, 42, "T", "1999"⟩] 1 42).1 = 1 ∧
    fav_remove (fav_remove [⟨1, 42, "T", "1999"⟩] 1 42).2 1 42 =
      (0, (fav_remove [⟨1, 42, "T", "1999"⟩] 1 42).2) := by
  have h1 := (fav_remove_idempotent [⟨1, 42, "T", "1999"⟩] 2 7).1 (by decide)
  have h2 := (fav_remove_idempotent [⟨1, 42, "T", "1999"⟩] 1 42).2.1 (by decide) (by decide)
  have h3 := (fav_remove_idempotent [⟨1, 42, "T", "1999"⟩] 1 42).2.2
  exact ⟨h1, h2, h3⟩

theorem hasButton_page (h : String) (rows : List (List Button)) (label : String) :
    hasButton (.ok (.page h rows)) label =
      rows.any (fun row => row.any (fun b => decide (b.text = label))) := rfl

theorem entry_head (t : String) : ("Подробнее: " ++ t).data.head? = some 'П' := by
  cases t with
  | mk l => rfl

theorem entry_ne (t label : String) (hl : ¬ label.data.head? = some 'П') :
    ¬ ("Подробнее: " ++ t) = label := by
  intro h
  apply hl
  rw [← h]
  exact entry_head t

theorem movies_no_label (results : List Movie) (label : String)
    (hl : ¬ label.data.head? = some 'П') :
    (movies_to_keyboard results).any
      (fun row => row.any (fun b => decide (b.text = label))) = false := by
  rw [List.any_eq_false]
  intro row hrow
  simp only [movies_to_keyboard, List.mem_map] at hrow
  obtain ⟨m, _, rfl⟩ := hrow
  simp [entry_ne (movieTitle m) label hl]

theorem prev_ne_next : ("◀ Пред" : String) ≠ "▶ След" := by decide

theorem next_ne_prev : ("▶ След" : String) ≠ "◀ Пред" := by decide

theorem nav_any_prev (kind : String) (page : Int) (payload : String) (tp : Int) (n : Nat) :
    ((nav_row_buttons kind page payload tp n).any
      (fun b => decide (b.text = "◀ Пред")) = true) ↔ 1 < page := by
  unfold nav_row_buttons
  by_cases hprev : 1 < page <;> by_cases h1 : page < tp <;> by_cases h2 : n = 20 <;>
    simp [hprev, h1, h2, next_ne_prev]

theorem nav_any_next (kind : String) (page : Int) (payload : String) (tp : Int) (n : Nat) :
    ((nav_row_buttons kind page payload tp n).any
      (fun b => decide (b.text = "▶ След")) = true) ↔ (page < tp ∨ n = 20) := by
  unfold nav_row_buttons
  by_cases hprev : 1 < page <;> by_cases h1 : page < tp <;> by_cases h2 : n = 20 <;>
    simp [hprev, h1, h2, prev_ne_next]

theorem render_hasButton (kind : String) (page : Int) (payload title_line : String)
    (data : RemotePage) (label : String)
    (hres : (data.results.getD []).isEmpty = false)
    (hl : ¬ label.data.head? = some 'П') :
    hasButton (.ok (render_results kind page payload title_line data)) label =
      (nav_row_buttons kind page payload (max 1 (data.total_pages.getD 1))
        (data.results.getD []).length).any (fun b => decide (b.text = label)) := by
  have hkb := movies_no_label (data.results.getD []) label hl
  unfold render_results
  rw [if_neg (by simp [hres])]
  by_cases hnav : (nav_row_buttons kind page payload (max 1 (data.total_pages.getD 1))
      (data.results.getD []).length).isEmpty = true
  · rw [if_pos hnav, hasButton_page, hkb]
    have hnil := List.isEmpty_iff.mp hnav
    rw [hnil]
    rfl
  · rw [if_neg hnav, hasButton_page, List.any_append, hkb]
    simp

theorem lt_max_one_iff (page tp : Int) (h : 1 ≤ page) : page < max 1 tp ↔ page < tp := by
  rcases le_or_lt tp 1 with h1 | h1
  · rw [max_eq_left h1]
    omega
  · rw [max_eq_right (le_of_lt h1)]

theorem show_list_valid_kind (kind : String) (page : Int) (payload title_line : String)
    (data : RemotePage)
    (hk : kind = "s" ∨ kind = "g" ∨ kind = "c")
    (hg : kind = "g" → (pyIntParse payload).isSome = true) :
    show_list_with_pagination kind page payload title_line data =
      .ok (render_results kind page payload title_line data) := by
  rcases hk with rfl | rfl | rfl
  · unfold show_list_with_pagination
    rw [if_pos rfl]
  · unfold show_list_with_pagination
    rw [if_neg (by decide), if_pos rfl]
    obtain ⟨v, hv⟩ := Option.isSome_iff_exists.mp (hg rfl)
    rw [hv]
  · unfold show_list_with_pagination
    rw [if_neg (by decide), if_neg (by decide), if_pos rfl]

/-- C3: on every rendered non-empty result page the "previous" button is emitted
exactly when page > 1, and the "next" button exactly when page < totalPages or
the page holds exactly 20 entries (the full-batch heuristic); in particular 20
entries with totalPages = 1 still yields "next", and 5 entries on the last page
yields none. -/
theorem pagination_nav_buttons (kind : String) (page : Int) (payload title_line : String)
    (data : RemotePage)
    (hk : kind = "s" ∨ kind = "g" ∨ kind = "c")
    (hg : kind = "g" → (pyIntParse payload).isSome = true)
    (hres : (data.results.getD []).isEmpty = false)
    (hpage : 1 ≤ page) :
    (hasButton (show_list_with_pagination kind page payload title_line data) "◀ Пред" = true ↔
      1 < page) ∧
    (hasButton (show_list_with_pagination kind page payload title_line data) "▶ След" = true ↔
      (page < data.total_pages.getD 1 ∨ (data.results.getD []).length = 20)) := by
  rw [show_list_valid_kind kind page payload title_line data hk hg,
    render_hasButton kind page payload title_line data "◀ Пред" hres (by decide),
    render_hasButton kind page payload title_line data "▶ След" hres (by decide)]
  constructor
  · exact nav_any_prev kind page payload _ _
  · rw [nav_any_next kind page payload _ _]
    have hmax := lt_max_one_iff page (data.total_pages.getD 1) hpage
    constructor
    · rintro (h | h)
      · exact Or.inl (hmax.mp h)
      · exact Or.inr h
    · rintro (h | h)
      · exact Or.inl (hmax.mpr h)
      · exact Or.inr h

theorem pagination_nav_buttons_witness :
    hasButton (show_list_with_pagination "s" 1 "x" "t"
      ⟨some (List.replicate 20 ⟨7, some "M", none⟩), some 1⟩) "▶ След" = true ∧
    hasButton (show_list_with_pagination "s" 2 "x" "t"
      ⟨some (List.replicate 5 ⟨7, some "M", none⟩), some 2⟩) "▶ След" = false ∧
    hasButton (show_list_with_pagination "s" 2 "x" "t"
      ⟨some (List.replicate 5 ⟨7, some "M", none⟩), some 2⟩) "◀ Пред" = true := by
  have h1 := pagination_nav_buttons "s" 1 "x" "t"
    ⟨some (List.replicate 20 ⟨7, some "M", none⟩), some 1⟩
    (Or.inl rfl) (by decide) (by decide) (by decide)
  have h2 := pagination_nav_buttons "s" 2 "x" "t"
    ⟨some (List.replicate 5 ⟨7, some "M", none⟩), some 2⟩
    (Or.inl rfl) (by decide) (by decide) (by decide)
  refine ⟨h1.2.mpr (Or.inr (by decide)), ?_, h2.1.mpr (by decide)⟩
  cases hb : hasButton (show_list_with_pagination "s" 2 "x" "t"
      ⟨some (List.replicate 5 ⟨7, some "M", none⟩), some 2⟩) "▶ След"
  · rfl
  · exact absurd (h2.2.mp hb) (by decide)

/-- C6: whenever the remote call yields zero entries, the renderer emits exactly
the literal "Ничего не найдено." message and nothing else — no entry buttons, no
navigation row and no page header. -/
theorem empty_results_terminal (kind : String) (page : Int) (payload title_line : String)
    (data : RemotePage)
    (hk : kind = "s" ∨ kind = "g" ∨ kind = "c")
    (hg : kind = "g" → (pyIntParse payload).isSome = true)
    (hres : (data.results.getD []).isEmpty = true) :
    show_list_with_pagination kind page payload title_line data =
      .ok (.message "Ничего не найдено.") ∧
    ∀ label, hasButton (show_list_with_pagination kind page payload title_line data)
      label = false := by
  have hrr : render_results kind page payload title_line data =
      .message "Ничего не найдено." := by
    unfold render_results
    rw [if_pos hres]
  have hmain : show_list_with_pagination kind page payload title_line data =
      .ok (.message "Ничего не найдено.") := by
    rw [show_list_valid_kind kind page payload title_line data hk hg, hrr]
  refine ⟨hmain, ?_⟩
  intro label
  rw [hmain]
  rfl

theorem empty_results_terminal_witness :
    show_list_with_pagination "s" 1 "nomatch" "t" ⟨some [], some 1⟩ =
      .ok (.message "Ничего не найдено.") ∧
    hasButton (show_list_with_pagination "s" 1 "nomatch" "t" ⟨some [], some 1⟩)
      "▶ След" = false := by
  have h := empty_results_terminal "s" 1 "nomatch" "t" ⟨some [], some 1⟩
    (Or.inl rfl) (by decide) (by decide)
  exact ⟨h.1, h.2 "▶ След"⟩

/-- C7: the renderer builds at most 10 entry buttons — exactly min(n, 10) of
them, one per result in result order, each carrying the "det:" token embedding
that entry's id — no matter how many entries the remote page returned. -/
theorem movies_to_keyboard_cap (results : List Movie) :
    (movies_to_keyboard results).length = min results.length 10 ∧
    ∀ i (h : i < (movies_to_keyboard results).length),
      ∃ h2 : i < results.length,
        (movies_to_keyboard results).get ⟨i, h⟩ =
          [⟨"Подробнее: " ++ movieTitle (results.get ⟨i, h2⟩),
            "det:" ++ pyIntStr (results.get ⟨i, h2⟩).id⟩] := by
  constructor
  · simp [movies_to_keyboard, List.length_take]
    omega
  · intro i h
    have hlen : i < results.length := by
      simp [movies_to_keyboard, List.length_take] at h
      omega
    refine ⟨hlen, ?_⟩
    simp [movies_to_keyboard, List.get_eq_getElem, List.getElem_map, List.getElem_take]

theorem movies_to_keyboard_cap_witness :
    (movies_to_keyboard (List.replicate 20 ⟨7, some "M", none⟩)).length =
      min (List.replicate 20 (⟨7, some "M", none⟩ : Movie)).length 10 ∧
    ∃ h2 : 0 < ([⟨550, some "Fight Club", none⟩] : List Movie).length,
      (movies_to_keyboard [⟨550, some "Fight Club", none⟩]).get ⟨0, by decide⟩ =
        [⟨"Подробнее: Fight Club", "det:550"⟩] := by
  constructor
  · exact (movies_to_keyboard_cap (List.replicate 20 ⟨7, some "M", none⟩)).1
  · obtain ⟨h2, e⟩ := (movies_to_keyboard_cap [⟨550, some "Fight Club", none⟩]).2 0 (by decide)
    have e0 : ([⟨550, some "Fight Club", none⟩] : List Movie).get ⟨0, h2⟩ =
        ⟨550, some "Fight Club", none⟩ := rfl
    rw [e0] at e
    exact ⟨h2, e.trans (by decide)⟩

/-- C9 (counterexample): the on_genre handler indexes the genre cache directly,
so with a cache lacking id 28 it raises KeyError instead of returning the
stringified id — the fallback does not hold in every handler. -/
theorem genre_lookup_counterexample :
    on_genre_header [] 28 = .raised "KeyError" ∧
    ∀ name, on_genre_header [] 28 ≠ .ok name := by
  refine ⟨by decide, ?_⟩
  intro name h
  cases h

/-- C9 (amended): on_page_nav looks the genre id up with a stringified-id
default, so a missing cache entry falls back to the stringified id there; but
on_genre indexes the cache directly and raises KeyError on a missing id. -/
theorem genre_lookup_fallback (cache : List (Int × String)) (gid : Int)
    (h : dictGet cache gid = none) :
    nav_genre_name cache (pyIntStr gid) = pyIntStr gid ∧
    on_genre_header cache gid = .raised "KeyError" := by
  constructor
  · unfold nav_genre_name
    rw [pyIntParse_pyIntStr gid]
    show dictGetD cache gid (pyIntStr gid) = pyIntStr gid
    unfold dictGetD
    rw [h]
    rfl
  · unfold on_genre_header
    rw [h]

theorem genre_lookup_fallback_witness :
    nav_genre_name [] (pyIntStr 28) = pyIntStr 28 ∧
    on_genre_header [] 28 = .raised "KeyError" :=
  genre_lookup_fallback [] 28 rfl
